import Mathlib

/-!
Verification of the member-transfer scripts.

The repository holds two Python scripts:

* `Xx.py` — the batch command-line variant (`MemberTransfer`): it collects
  the source roster in memory, creates a `transfer_sessions` row, and adds
  members one by one with a flood-wait handler.
* `X.py` — the bot-front-end variant (`UserbotMemberManager`): it persists
  the roster to `group_members` in batches of 100, tracks runs in
  `transfer_operations`, and offers clear/undo of the stores.

This file gives a shallow embedding of the data model and control flow of
both scripts and proves or refutes the specification claims about them.
External effects (the Telegram client, sleeps, message edits) are modelled
by an oracle assigning each member an `AddResult`, and by traces recorded
in the loop state.
-/

set_option maxHeartbeats 1000000
set_option maxRecDepth 100000

namespace MemberTool

/-- A member record as seen by the roster enumeration: numeric id plus the
two flags the scripts inspect (`user.is_bot`, `user.is_deleted`). -/
structure User where
  uid : Nat
  isBot : Bool
  isDeleted : Bool
deriving DecidableEq

/-- Outcome of one `add_chat_members` call, as distinguished by the code:
`FloodWait` carries a wait duration; every other exception (including a
privacy restriction) falls into the generic `except Exception` branch. -/
inductive AddResult where
  | ok
  | floodWait (wait : Nat)
  | privacyRestricted
  | otherError
deriving DecidableEq

/-- Per-member states named by the specification's transfer state machine. -/
inductive MemberState where
  | pending
  | added
  | invited
  | failed
deriving DecidableEq

/-- Status values stored in the session / operation rows. -/
inductive SessionStatus where
  | started
  | completed
  | failed
  | cancelled
  | saving
deriving DecidableEq

/-- One observation of the session ledger: the counters of a
`transfer_sessions` / `transfer_operations` row.  Neither script has an
invited-members column, so the embedding carries `invited` as the constant
zero that the stored row denotes. -/
structure LedgerEntry where
  transferred : Nat
  invited : Nat
  total : Nat
deriving DecidableEq

/-- An element of the roster enumeration stream: either a yielded member or
the point at which `get_chat_members` raises. -/
inductive StreamItem where
  | member (u : User)
  | failure
deriving DecidableEq

/-- Build the textual bar of `filled` full characters padded to `width`. -/
def barString (filled width : Nat) (full empty : Char) : String :=
  String.mk (List.replicate filled full ++ List.replicate (width - filled) empty)

namespace Xx

/-- Embedding of `get_progress_bar` from `Xx.py`: all-empty bar when
`total = 0`, otherwise `int(width * min(progress, total) / total)` filled
characters (integer division on naturals). -/
def get_progress_bar (progress total width : Nat) : String :=
  if total = 0 then String.mk (List.replicate width '─')
  else barString (width * min progress total / total) width '█' '─'

/-- The member filter of the collection loop in `Xx.py` lines 91-99:
`if not user.is_bot and not user.is_deleted`. -/
def collected (roster : List User) : List User :=
  roster.filter (fun u => !u.isBot && !u.isDeleted)

/-- Streaming form of the collection loop in `Xx.py`: members accumulate in
an in-memory list; if the enumeration raises mid-stream the exception
escapes to the outer handler and the whole run aborts, so the partial list
is discarded (`none`). -/
def collectAux : List StreamItem → List User → Option (List User)
  | [], acc => some acc
  | StreamItem.member u :: rest, acc =>
      if !u.isBot && !u.isDeleted then collectAux rest (acc ++ [u])
      else collectAux rest acc
  | StreamItem.failure :: _, _ => none

/-- Run the `Xx.py` collection over a roster stream starting empty. -/
def collect (stream : List StreamItem) : Option (List User) :=
  collectAux stream []

/-- State threaded through the transfer loop of `Xx.py` lines 121-152:
the two counters, the trace of `add_chat_members` invocations, the trace of
in-loop ledger writes as (1-based attempt index, transferred value) pairs,
and the flood-wait sleeps performed. -/
structure LoopState where
  success : Nat
  failed : Nat
  attempted : List Nat
  ledger : List (Nat × Nat)
  floodSleeps : List Nat
deriving DecidableEq

/-- Initial loop state. -/
def initState : LoopState := ⟨0, 0, [], [], []⟩

/-- One iteration of the `Xx.py` transfer loop at 0-based `index` for member
`uid` whose add call returns `r`:
on success the counter increments and the ledger row is updated when
`(index + 1) % 5 == 0 or (index + 1) == total_count`;
on `FloodWait w` the loop sleeps `w` seconds and moves on (`continue`);
on any other exception `failed_count` increments and the loop moves on. -/
def step (total index uid : Nat) (r : AddResult) (s : LoopState) : LoopState :=
  match r with
  | AddResult.ok =>
      { s with
        success := s.success + 1
        attempted := s.attempted ++ [uid]
        ledger :=
          if (index + 1) % 5 = 0 ∨ index + 1 = total then
            s.ledger ++ [(index + 1, s.success + 1)]
          else s.ledger }
  | AddResult.floodWait w =>
      { s with
        attempted := s.attempted ++ [uid]
        floodSleeps := s.floodSleeps ++ [w] }
  | AddResult.privacyRestricted =>
      { s with failed := s.failed + 1, attempted := s.attempted ++ [uid] }
  | AddResult.otherError =>
      { s with failed := s.failed + 1, attempted := s.attempted ++ [uid] }

/-- The `for index, user_id in enumerate(members)` loop of `Xx.py`. -/
def loopAux (results : Nat → AddResult) (total : Nat) :
    Nat → List Nat → LoopState → LoopState
  | _, [], s => s
  | index, uid :: rest, s =>
      loopAux results total (index + 1) rest (step total index uid (results uid) s)

/-- Run the full `Xx.py` transfer loop over the collected member ids, with
`results` the oracle giving the outcome of each add call. -/
def runLoop (results : Nat → AddResult) (members : List Nat) : LoopState :=
  loopAux results members.length 0 members initState

/-- The sequence of ledger counter observations one transfer run produces:
the creation insert `(transferred=0, total)`, every in-loop update, and the
final completion update. -/
def sessionTrace (results : Nat → AddResult) (members : List Nat) : List LedgerEntry :=
  let total := members.length
  let fin := runLoop results members
  ⟨0, 0, total⟩ :: (fin.ledger.map (fun p => ⟨p.2, 0, total⟩) ++ [⟨fin.success, 0, total⟩])

/-- The per-member state transition realised by the `Xx.py` loop body: a
successful add yields `ADDED`; a flood wait leaves the member unresolved
(the loop moves on without recording anything for it); every other
exception yields `FAILED`. -/
def memberTransition : AddResult → MemberState
  | AddResult.ok => MemberState.added
  | AddResult.floodWait _ => MemberState.pending
  | AddResult.privacyRestricted => MemberState.failed
  | AddResult.otherError => MemberState.failed

end Xx

namespace X

/-- Embedding of `get_progress_bar` from `X.py` lines 21-31 with its style
parameter; an unknown style falls through to the block characters. -/
def get_progress_bar (progress total width : Nat) (style : String) : String :=
  if total = 0 then String.mk (List.replicate width '─')
  else
    let filled := width * min progress total / total
    if style = "block" then barString filled width '█' '─'
    else if style = "circle" then barString filled width '●' '○'
    else if style = "arrow" then barString filled width '➔' '—'
    else barString filled width '█' '─'

/-- The member filter of `save_actual_members` in `X.py` lines 269-273:
only `if user.is_bot: continue` — deleted accounts and the operator are
kept. -/
def collected (roster : List User) : List User :=
  roster.filter (fun u => !u.isBot)

/-- Result of one `save_actual_members` call: the user ids committed to the
`group_members` table, the status written to the `transfer_operations` row,
and the returned `saved_count` (which the caller then writes into
`source_groups.member_count`). -/
structure SaveResult where
  persisted : List Nat
  opStatus : SessionStatus
  saved : Nat
deriving DecidableEq

/-- The enumeration loop of `save_actual_members`: non-bot members join the
current batch, each full batch of 100 is inserted and committed, the tail
batch is flushed after a clean finish; if the enumeration raises, the
handler marks the operation `failed` and returns — rows already committed
stay in the table and the unflushed batch is lost. -/
def saveAux : List StreamItem → List Nat → List Nat → Nat → SaveResult
  | [], persisted, batch, saved => ⟨persisted ++ batch, SessionStatus.completed, saved⟩
  | StreamItem.member u :: rest, persisted, batch, saved =>
      if u.isBot then saveAux rest persisted batch saved
      else if 100 ≤ (batch ++ [u.uid]).length then
        saveAux rest (persisted ++ (batch ++ [u.uid])) [] (saved + 1)
      else saveAux rest persisted (batch ++ [u.uid]) (saved + 1)
  | StreamItem.failure :: _, persisted, _, saved => ⟨persisted, SessionStatus.failed, saved⟩

/-- Run `save_actual_members` from an empty table state. -/
def save_actual_members (stream : List StreamItem) : SaveResult :=
  saveAux stream [] [] 0

/-- State threaded through `add_members_to_target` in `X.py` lines 317-360. -/
structure LoopState where
  success : Nat
  attempted : List Nat
  ledger : List (Nat × Nat)
  floodSleeps : List Nat
deriving DecidableEq

/-- Initial loop state of the bot variant. -/
def initState : LoopState := ⟨0, [], [], []⟩

/-- One iteration of `add_members_to_target`: on success the counter
increments and the `transfer_operations` row is updated on EVERY successful
attempt (the every-5th condition only gates the status-message edit); on
`FloodWait w` the loop sleeps and moves on; any other exception is logged
and the loop moves on without touching any counter. -/
def step (index uid : Nat) (r : AddResult) (s : LoopState) : LoopState :=
  match r with
  | AddResult.ok =>
      { s with
        success := s.success + 1
        attempted := s.attempted ++ [uid]
        ledger := s.ledger ++ [(index + 1, s.success + 1)] }
  | AddResult.floodWait w =>
      { s with
        attempted := s.attempted ++ [uid]
        floodSleeps := s.floodSleeps ++ [w] }
  | AddResult.privacyRestricted => { s with attempted := s.attempted ++ [uid] }
  | AddResult.otherError => { s with attempted := s.attempted ++ [uid] }

/-- The `for index, (user_id, ...) in enumerate(members)` loop of `X.py`. -/
def loopAux (results : Nat → AddResult) :
    Nat → List Nat → LoopState → LoopState
  | _, [], s => s
  | index, uid :: rest, s =>
      loopAux results (index + 1) rest (step index uid (results uid) s)

/-- Run the full `add_members_to_target` loop. -/
def runLoop (results : Nat → AddResult) (members : List Nat) : LoopState :=
  loopAux results 0 members initState

/-- Ledger counter observations of one bot-variant run: the creation insert
(`X.py` line 434), every in-loop update, and the completion update. -/
def sessionTrace (results : Nat → AddResult) (members : List Nat) : List LedgerEntry :=
  let total := members.length
  let fin := runLoop results members
  ⟨0, 0, total⟩ :: (fin.ledger.map (fun p => ⟨p.2, 0, total⟩) ++ [⟨fin.success, 0, total⟩])

/-- The per-member state transition realised by the `X.py` loop body. -/
def memberTransition : AddResult → MemberState
  | AddResult.ok => MemberState.added
  | AddResult.floodWait _ => MemberState.pending
  | AddResult.privacyRestricted => MemberState.failed
  | AddResult.otherError => MemberState.failed

end X

/-- Truthiness of `os.getenv(...)` in a Python `if`: an unset variable gives
`None` and an empty string is also falsy. -/
def truthyEnv : Option String → Bool
  | none => false
  | some s => !s.isEmpty

/-- What the program does at startup with the two credential variables. -/
inductive StartupOutcome where
  | halted (message : String)
  | proceeds (apiId apiHash : String)
deriving DecidableEq

/-- Startup of the batch variant, `main` in `Xx.py` lines 227-232: when
either credential is unset or empty, print the descriptive message and
return before any other work; otherwise proceed with the given values. -/
def xxMainStartup (apiId apiHash : Option String) : StartupOutcome :=
  if !truthyEnv apiId || !truthyEnv apiHash then
    StartupOutcome.halted "❌ Please set environment variables first:"
  else
    StartupOutcome.proceeds (apiId.getD "") (apiHash.getD "")

/-- Startup of the bot variant, the module-level `Client(...)` construction
in `X.py` lines 678-682: `os.getenv` is called with hardcoded fallback
credentials, so the program always proceeds and never halts on absence. -/
def xAppStartup (apiId apiHash : Option String) : StartupOutcome :=
  StartupOutcome.proceeds (apiId.getD "27769778")
    (apiHash.getD "b14c7b82cb09e90706ff61f02a2b46aa")

/-- The ledger writes that can touch the status column of a transfer row
after its creation: the completion update (`X.py` lines 445-449, `Xx.py`
lines 155-159), the failure update (`X.py` lines 466-469), and the cancel
callback (`X.py` lines 800-809).  Each underlying SQL UPDATE is
unconditional on the current status. -/
inductive LedgerOp where
  | finalizeCompleted
  | finalizeFailed
  | cancelCallback
deriving DecidableEq

/-- Effect of one status-touching ledger write; each write overwrites the
status unconditionally, whatever the current value is. -/
def statusStep (_s : SessionStatus) (op : LedgerOp) : SessionStatus :=
  match op with
  | LedgerOp.finalizeCompleted => SessionStatus.completed
  | LedgerOp.finalizeFailed => SessionStatus.failed
  | LedgerOp.cancelCallback => SessionStatus.cancelled

/-- Status after a sequence of ledger writes. -/
def runStatus (s : SessionStatus) (ops : List LedgerOp) : SessionStatus :=
  ops.foldl statusStep s

/-- The six tables of the bot variant's store that clear/undo move around,
with row contents abstract. -/
structure StoreDB (α β γ : Type) where
  source_groups : List α
  group_members : List β
  transfer_operations : List γ
  backup_source_groups : List α
  backup_group_members : List β
  backup_transfer_operations : List γ

/-- `clear_data_command` (`X.py` lines 623-645): delete the backup tables,
copy every primary table into its backup, then delete the primary tables. -/
def clear_data_command (db : StoreDB α β γ) : StoreDB α β γ :=
  { source_groups := []
    group_members := []
    transfer_operations := []
    backup_source_groups := db.source_groups
    backup_group_members := db.group_members
    backup_transfer_operations := db.transfer_operations }

/-- `undo_clear` (`X.py` lines 657-667): insert every backup table into its
primary table, then delete the backup tables. -/
def undo_clear (db : StoreDB α β γ) : StoreDB α β γ :=
  { source_groups := db.source_groups ++ db.backup_source_groups
    group_members := db.group_members ++ db.backup_group_members
    transfer_operations := db.transfer_operations ++ db.backup_transfer_operations
    backup_source_groups := []
    backup_group_members := []
    backup_transfer_operations := [] }

/-- Concrete enumeration stream for the partial-persistence scenario: one
hundred ordinary members followed by a mid-stream enumeration failure. -/
def failingStream : List StreamItem :=
  (List.range 100).map (fun i => StreamItem.member ⟨i, false, false⟩) ++ [StreamItem.failure]

/-- Concrete oracle that rate-limits every add call with a 3 second wait. -/
def alwaysFlood : Nat → AddResult := fun _ => AddResult.floodWait 3

/-- Concrete oracle under which every add call succeeds. -/
def alwaysOk : Nat → AddResult := fun _ => AddResult.ok

theorem string_mk_length (l : List Char) : (String.mk l).length = l.length := rfl

theorem barString_length (filled width : Nat) (full empty : Char)
    (h : filled ≤ width) : (barString filled width full empty).length = width := by
  rw [barString, string_mk_length]
  simp only [List.length_append, List.length_replicate]
  omega

theorem filled_le_width (progress total width : Nat) (ht : total ≠ 0) :
    width * min progress total / total ≤ width := by
  have h1 : width * min progress total ≤ width * total :=
    Nat.mul_le_mul_left width (min_le_right progress total)
  have h2 : width * min progress total / total ≤ width * total / total :=
    Nat.div_le_div_right h1
  rwa [Nat.mul_div_cancel width (Nat.pos_of_ne_zero ht)] at h2

theorem Xx.collectAux_failure_none :
    ∀ (stream : List StreamItem) (acc : List User),
      StreamItem.failure ∈ stream → Xx.collectAux stream acc = none := by
  intro stream
  induction stream with
  | nil => intro acc h; cases h
  | cons item rest ih =>
      intro acc h
      cases item with
      | member u =>
          have hrest : StreamItem.failure ∈ rest := by
            rcases List.mem_cons.mp h with h' | h'
            · cases h'
            · exact h'
          by_cases hu : (!u.isBot && !u.isDeleted) = true
          · simp only [Xx.collectAux, hu, if_true]
            exact ih _ hrest
          · simp only [Xx.collectAux, hu, if_false]
            exact ih _ hrest
      | failure => rfl

theorem Xx.collectAux_members :
    ∀ (roster : List User) (acc : List User),
      Xx.collectAux (roster.map StreamItem.member) acc = some (acc ++ Xx.collected roster) := by
  intro roster
  induction roster with
  | nil => intro acc; simp [Xx.collectAux, Xx.collected]
  | cons u rest ih =>
      intro acc
      simp only [List.map_cons, Xx.collectAux]
      by_cases hu : (!u.isBot && !u.isDeleted) = true
      · rw [if_pos hu, ih]
        simp [Xx.collected, List.filter_cons, hu]
      · rw [if_neg hu, ih]
        simp [Xx.collected, List.filter_cons, hu]

theorem X.saveAux_persisted :
    ∀ (roster : List User) (persisted batch : List Nat) (saved : Nat),
      (X.saveAux (roster.map StreamItem.member) persisted batch saved).persisted
        = persisted ++ batch ++ (X.collected roster).map User.uid := by
  intro roster
  induction roster with
  | nil => intro persisted batch saved; simp [X.saveAux, X.collected]
  | cons u rest ih =>
      intro persisted batch saved
      simp only [List.map_cons, X.saveAux]
      by_cases hu : u.isBot = true
      · rw [if_pos hu, ih]
        simp [X.collected, List.filter_cons, hu]
      · rw [if_neg hu]
        by_cases hlen : 100 ≤ (batch ++ [u.uid]).length
        · rw [if_pos hlen, ih]
          simp [X.collected, List.filter_cons, hu]
        · rw [if_neg hlen, ih]
          simp [X.collected, List.filter_cons, hu]

/-- C10: for all natural progress, total and width, `get_progress_bar`
returns a string of exactly `width` characters; when `total = 0` it is the
all-empty bar; the filled portion never exceeds `width` even when progress
exceeds total; and every style of the bot variant has the same length. -/
theorem c10_progress_bar_shape : ∀ (progress total width : Nat),
    (Xx.get_progress_bar progress total width).length = width ∧
    (total = 0 → Xx.get_progress_bar progress total width = String.mk (List.replicate width '─')) ∧
    (Xx.get_progress_bar progress total width).data.count '█' ≤ width ∧
    (∀ style : String, (X.get_progress_bar progress total width style).length = width) := by
  intro progress total width
  by_cases ht : total = 0
  · subst ht
    refine ⟨?_, fun _ => ?_, ?_, fun style => ?_⟩
    · simp [Xx.get_progress_bar, string_mk_length]
    · simp [Xx.get_progress_bar]
    · calc (Xx.get_progress_bar progress 0 width).data.count '█'
          ≤ (Xx.get_progress_bar progress 0 width).data.length := List.count_le_length _ _
        _ = width := by simp [Xx.get_progress_bar]
    · simp [X.get_progress_bar, string_mk_length]
  · have hf := filled_le_width progress total width ht
    refine ⟨?_, fun h0 => absurd h0 ht, ?_, fun style => ?_⟩
    · simp only [Xx.get_progress_bar, if_neg ht]
      exact barString_length _ _ _ _ hf
    · calc (Xx.get_progress_bar progress total width).data.count '█'
          ≤ (Xx.get_progress_bar progress total width).data.length := List.count_le_length _ _
        _ = (Xx.get_progress_bar progress total width).length := rfl
        _ = width := by
            simp only [Xx.get_progress_bar, if_neg ht]
            exact barString_length _ _ _ _ hf
    · simp only [X.get_progress_bar, if_neg ht]
      split_ifs <;> exact barString_length _ _ _ _ hf

/-- Witness for C10 at progress 5, total 0, width 4: the all-empty bar. -/
theorem c10_witness : Xx.get_progress_bar 5 0 4 = String.mk (List.replicate 4 '─') :=
  (c10_progress_bar_shape 5 0 4).2.1 rfl

/-- C9: running `undo_clear` right after `clear_data_command` restores the
three primary tables to exactly the rows they held before the clear and
leaves the three backup tables empty. -/
theorem c9_clear_undo_roundtrip : ∀ (α β γ : Type) (db : StoreDB α β γ),
    (undo_clear (clear_data_command db)).source_groups = db.source_groups ∧
    (undo_clear (clear_data_command db)).group_members = db.group_members ∧
    (undo_clear (clear_data_command db)).transfer_operations = db.transfer_operations ∧
    (undo_clear (clear_data_command db)).backup_source_groups = [] ∧
    (undo_clear (clear_data_command db)).backup_group_members = [] ∧
    (undo_clear (clear_data_command db)).backup_transfer_operations = [] := by
  intro α β γ db
  simp [clear_data_command, undo_clear]

/-- C8 counterexample: with both credential variables absent, the bot
variant does not halt — it proceeds with the hardcoded fallback
credentials baked into the `Client(...)` call. -/
theorem c8_counterexample :
    xAppStartup none none =
      StartupOutcome.proceeds "27769778" "b14c7b82cb09e90706ff61f02a2b46aa" := rfl

/-- C8 amended: the batch variant halts with its descriptive message
whenever either credential variable is absent; the bot variant never halts
for any environment. -/
theorem c8_amended_startup :
    (∀ apiId apiHash : Option String, apiId = none ∨ apiHash = none →
      xxMainStartup apiId apiHash =
        StartupOutcome.halted "❌ Please set environment variables first:") ∧
    (∀ (apiId apiHash : Option String) (m : String),
      xAppStartup apiId apiHash ≠ StartupOutcome.halted m) := by
  constructor
  · intro apiId apiHash h
    rcases h with h | h <;> subst h <;> simp [xxMainStartup, truthyEnv]
  · intro apiId apiHash m h
    simp [xAppStartup] at h

/-- Witness for C8: the batch variant halts when `API_ID` is unset. -/
theorem c8_witness :
    xxMainStartup none (some "hash") =
      StartupOutcome.halted "❌ Please set environment variables first:" :=
  c8_amended_startup.1 none (some "hash") (Or.inl rfl)

/-- C6 counterexample: a session that moved `started → completed` is then
moved `completed → cancelled` by the cancel callback, whose SQL UPDATE is
unconditional on the current status — so the status does change again after
leaving `started`. -/
theorem c6_counterexample :
    statusStep SessionStatus.started LedgerOp.finalizeCompleted = SessionStatus.completed ∧
    SessionStatus.completed ≠ SessionStatus.started ∧
    statusStep SessionStatus.completed LedgerOp.cancelCallback = SessionStatus.cancelled ∧
    SessionStatus.cancelled ≠ SessionStatus.completed := by decide

theorem runStatus_cons (s : SessionStatus) (op : LedgerOp) (ops : List LedgerOp) :
    runStatus s (op :: ops) = runStatus (statusStep s op) ops := rfl

/-- C6 amended: no status-touching ledger write ever produces `started`, so
no session re-enters `started`; but statuses after `started` are not
stable (see the counterexample). -/
theorem c6_amended_no_reentry : ∀ (s : SessionStatus) (ops : List LedgerOp),
    ops ≠ [] → runStatus s ops ≠ SessionStatus.started := by
  intro s ops
  induction ops generalizing s with
  | nil => intro h; exact absurd rfl h
  | cons op rest ih =>
      intro _
      rw [runStatus_cons]
      by_cases hr : rest = []
      · subst hr
        cases op <;> simp [runStatus, statusStep]
      · exact ih (statusStep s op) hr

/-- Witness for C6 on the one-write trace that completes a session. -/
theorem c6_witness :
    runStatus SessionStatus.started [LedgerOp.finalizeCompleted] ≠ SessionStatus.started :=
  c6_amended_no_reentry SessionStatus.started [LedgerOp.finalizeCompleted] (by decide)

/-- C2 counterexample: a non-bot non-deleted user with id 7 — the operator
whose own id is 7 — survives the batch collector, and a deleted account
survives the bot-variant collector; the claim requires both to be
excluded. -/
theorem c2_counterexample :
    ((⟨7, false, false⟩ : User) ∈ Xx.collected [⟨7, false, false⟩]) ∧
    ((⟨5, false, true⟩ : User) ∈ X.collected [⟨5, false, true⟩]) ∧
    (⟨5, false, true⟩ : User).isDeleted = true := by decide

/-- C2 amended: every member the batch collector keeps is neither a bot nor
deleted, and every member the bot-variant collector keeps is not a bot;
neither collector excludes deleted accounts in the bot variant or the
operator's own account in either variant. -/
theorem c2_amended_collector_exclusions : ∀ (roster : List User),
    (∀ u ∈ Xx.collected roster, u.isBot = false ∧ u.isDeleted = false) ∧
    (∀ u ∈ X.collected roster, u.isBot = false) := by
  intro roster
  constructor
  · intro u hu
    have h := List.of_mem_filter hu
    simp only [Bool.and_eq_true, Bool.not_eq_true'] at h
    exact h
  · intro u hu
    have h := List.of_mem_filter hu
    simpa using h

/-- Witness for C2 on a singleton roster of one ordinary human account. -/
theorem c2_witness :
    (⟨3, false, false⟩ : User).isBot = false ∧ (⟨3, false, false⟩ : User).isDeleted = false :=
  (c2_amended_collector_exclusions [⟨3, false, false⟩]).1 ⟨3, false, false⟩ (by decide)

/-- C7 counterexample: on an enumeration that yields 100 members and then
fails, the bot variant keeps the full committed batch of 100 rows in
`group_members` — the partial roster is persisted, not discarded. -/
theorem c7_counterexample :
    (X.save_actual_members failingStream).opStatus = SessionStatus.failed ∧
    (X.save_actual_members failingStream).persisted.length = 100 ∧
    (X.save_actual_members failingStream).persisted ≠ [] := by decide

/-- C7 amended: the batch variant is atomic — any mid-stream enumeration
failure aborts the whole collection and discards the partial in-memory
list; the bot variant is not — batches of 100 committed before the failure
stay persisted while the operation row is marked failed. -/
theorem c7_amended_partial_persistence :
    (∀ stream : List StreamItem, StreamItem.failure ∈ stream → Xx.collect stream = none) ∧
    (X.save_actual_members failingStream).persisted.length = 100 ∧
    (X.save_actual_members failingStream).opStatus = SessionStatus.failed := by
  refine ⟨fun stream h => Xx.collectAux_failure_none stream [] h, by decide, by decide⟩

/-- Witness for C7: an enumeration that fails immediately collects
nothing. -/
theorem c7_witness : Xx.collect [StreamItem.failure] = none :=
  c7_amended_partial_persistence.1 [StreamItem.failure] (by decide)

theorem xx_loopAux_attempted (results : Nat → AddResult) (total : Nat) :
    ∀ (l : List Nat) (index : Nat) (s : Xx.LoopState),
      (Xx.loopAux results total index l s).attempted = s.attempted ++ l := by
  intro l
  induction l with
  | nil => intro index s; simp [Xx.loopAux]
  | cons uid rest ih =>
      intro index s
      simp only [Xx.loopAux]
      rw [ih]
      cases hr : results uid <;> simp [Xx.step, hr]

theorem x_loopAux_attempted (results : Nat → AddResult) :
    ∀ (l : List Nat) (index : Nat) (s : X.LoopState),
      (X.loopAux results index l s).attempted = s.attempted ++ l := by
  intro l
  induction l with
  | nil => intro index s; simp [X.loopAux]
  | cons uid rest ih =>
      intro index s
      simp only [X.loopAux]
      rw [ih]
      cases hr : results uid <;> simp [X.step, hr]

theorem xx_loopAux_inv (results : Nat → AddResult) (total : Nat) :
    ∀ (l : List Nat) (index : Nat) (s : Xx.LoopState),
      s.success ≤ index → index + l.length ≤ total →
      (∀ p ∈ s.ledger, p.2 ≤ total ∧ (p.1 % 5 = 0 ∨ p.1 = total)) →
      ((Xx.loopAux results total index l s).success ≤ total ∧
        ∀ p ∈ (Xx.loopAux results total index l s).ledger,
          p.2 ≤ total ∧ (p.1 % 5 = 0 ∨ p.1 = total)) := by
  intro l
  induction l with
  | nil =>
      intro index s hs hidx hled
      simp only [Xx.loopAux]
      simp only [List.length_nil] at hidx
      exact ⟨le_trans hs (by omega), hled⟩
  | cons uid rest ih =>
      intro index s hs hidx hled
      simp only [List.length_cons] at hidx
      simp only [Xx.loopAux]
      cases hr : results uid with
      | ok =>
          refine ih (index + 1) _ ?_ ?_ ?_
          · simp only [Xx.step]
            omega
          · omega
          · intro p hp
            simp only [Xx.step] at hp
            by_cases h5 : (index + 1) % 5 = 0 ∨ index + 1 = total
            · rw [if_pos h5] at hp
              rcases List.mem_append.mp hp with h | h
              · exact hled p h
              · have hpq : p = (index + 1, s.success + 1) := by simpa using h
                subst hpq
                exact ⟨by simpa using Nat.le_trans (Nat.succ_le_succ hs) (by omega), h5⟩
            · rw [if_neg h5] at hp
              exact hled p hp
      | floodWait w =>
          refine ih (index + 1) _ ?_ ?_ ?_
          · simp only [Xx.step]
            omega
          · omega
          · intro p hp
            simp only [Xx.step] at hp
            exact hled p hp
      | privacyRestricted =>
          refine ih (index + 1) _ ?_ ?_ ?_
          · simp only [Xx.step]
            omega
          · omega
          · intro p hp
            simp only [Xx.step] at hp
            exact hled p hp
      | otherError =>
          refine ih (index + 1) _ ?_ ?_ ?_
          · simp only [Xx.step]
            omega
          · omega
          · intro p hp
            simp only [Xx.step] at hp
            exact hled p hp

theorem x_loopAux_inv (results : Nat → AddResult) (total : Nat) :
    ∀ (l : List Nat) (index : Nat) (s : X.LoopState),
      s.success ≤ index → index + l.length ≤ total →
      (∀ p ∈ s.ledger, p.2 ≤ total) →
      ((X.loopAux results index l s).success ≤ total ∧
        ∀ p ∈ (X.loopAux results index l s).ledger, p.2 ≤ total) := by
  intro l
  induction l with
  | nil =>
      intro index s hs hidx hled
      simp only [X.loopAux]
      simp only [List.length_nil] at hidx
      exact ⟨le_trans hs (by omega), hled⟩
  | cons uid rest ih =>
      intro index s hs hidx hled
      simp only [List.length_cons] at hidx
      simp only [X.loopAux]
      cases hr : results uid with
      | ok =>
          refine ih (index + 1) _ ?_ ?_ ?_
          · simp only [X.step]
            omega
          · omega
          · intro p hp
            simp only [X.step] at hp
            rcases List.mem_append.mp hp with h | h
            · exact hled p h
            · have hpq : p = (index + 1, s.success + 1) := by simpa using h
              subst hpq
              simpa using Nat.le_trans (Nat.succ_le_succ hs) (by omega)
      | floodWait w =>
          refine ih (index + 1) _ ?_ ?_ ?_
          · simp only [X.step]
            omega
          · omega
          · intro p hp
            simp only [X.step] at hp
            exact hled p hp
      | privacyRestricted =>
          refine ih (index + 1) _ ?_ ?_ ?_
          · simp only [X.step]
            omega
          · omega
          · intro p hp
            simp only [X.step] at hp
            exact hled p hp
      | otherError =>
          refine ih (index + 1) _ ?_ ?_ ?_
          · simp only [X.step]
            omega
          · omega
          · intro p hp
            simp only [X.step] at hp
            exact hled p hp

theorem X.loopAux_ledger_length (results : Nat → AddResult) :
    ∀ (l : List Nat) (index : Nat) (s : X.LoopState),
      (X.loopAux results index l s).ledger.length + s.success
        = s.ledger.length + (X.loopAux results index l s).success := by
  intro l
  induction l with
  | nil => intro index s; simp [X.loopAux]
  | cons uid rest ih =>
      intro index s
      simp only [X.loopAux]
      cases hr : results uid with
      | ok =>
          have h := ih (index + 1) (X.step index uid AddResult.ok s)
          have h1 : (X.step index uid AddResult.ok s).success = s.success + 1 := rfl
          have h2 : (X.step index uid AddResult.ok s).ledger.length = s.ledger.length + 1 := by
            simp [X.step]
          omega
      | floodWait w =>
          have h := ih (index + 1) (X.step index uid (AddResult.floodWait w) s)
          have h1 : (X.step index uid (AddResult.floodWait w) s).success = s.success := rfl
          have h2 : (X.step index uid (AddResult.floodWait w) s).ledger.length
              = s.ledger.length := rfl
          omega
      | privacyRestricted =>
          have h := ih (index + 1) (X.step index uid AddResult.privacyRestricted s)
          have h1 : (X.step index uid AddResult.privacyRestricted s).success = s.success := rfl
          have h2 : (X.step index uid AddResult.privacyRestricted s).ledger.length
              = s.ledger.length := rfl
          omega
      | otherError =>
          have h := ih (index + 1) (X.step index uid AddResult.otherError s)
          have h1 : (X.step index uid AddResult.otherError s).success = s.success := rfl
          have h2 : (X.step index uid AddResult.otherError s).ledger.length
              = s.ledger.length := rfl
          omega

/-- C1 counterexample: with one member whose add call raises flood control
with a 3 second wait, the loop performs the wait but then moves on — the
member is attempted exactly once, not retried a second time as the claim
requires (`continue` advances the `for` loop to the next member). -/
theorem c1_counterexample :
    (Xx.runLoop alwaysFlood [7]).attempted.count 7 = 1 ∧
    ¬ (Xx.runLoop alwaysFlood [7]).attempted.count 7 = 2 ∧
    (Xx.runLoop alwaysFlood [7]).floodSleeps = [3] ∧
    (Xx.runLoop alwaysFlood [7]).failed = 0 ∧
    (X.runLoop alwaysFlood [7]).attempted.count 7 = 1 ∧
    (X.runLoop alwaysFlood [7]).floodSleeps = [3] := by decide

/-- C1 amended: in both variants a flood-control signal makes the loop
sleep the mandated wait and then skip to the next member: every member is
attempted exactly once per run (the attempt trace equals the member list),
and the flood branch leaves the success counter, the failure counter and
the ledger untouched — it is never recorded as the member's failure. -/
theorem c1_amended_flood_skips_member :
    ∀ (results : Nat → AddResult) (members : List Nat) (total index uid w : Nat)
      (s : Xx.LoopState) (t : X.LoopState),
    (Xx.runLoop results members).attempted = members ∧
    (X.runLoop results members).attempted = members ∧
    (Xx.step total index uid (AddResult.floodWait w) s).success = s.success ∧
    (Xx.step total index uid (AddResult.floodWait w) s).failed = s.failed ∧
    (Xx.step total index uid (AddResult.floodWait w) s).ledger = s.ledger ∧
    (Xx.step total index uid (AddResult.floodWait w) s).floodSleeps = s.floodSleeps ++ [w] ∧
    (X.step index uid (AddResult.floodWait w) t).success = t.success ∧
    (X.step index uid (AddResult.floodWait w) t).ledger = t.ledger ∧
    (X.step index uid (AddResult.floodWait w) t).floodSleeps = t.floodSleeps ++ [w] := by
  intro results members total index uid w s t
  refine ⟨?_, ?_, rfl, rfl, rfl, rfl, rfl, rfl, rfl⟩
  · rw [Xx.runLoop, xx_loopAux_attempted]
    simp [Xx.initState]
  · rw [X.runLoop, x_loopAux_attempted]
    simp [X.initState]

/-- C3: in both variants, every ledger observation of a transfer run — the
creation insert, every in-loop progress update and the completion update —
satisfies `transferred + invited ≤ total` (the stored rows have no invited
column, so the invited count every observation denotes is zero). -/
theorem c3_ledger_invariant : ∀ (results : Nat → AddResult) (members : List Nat),
    (∀ e ∈ Xx.sessionTrace results members, e.transferred + e.invited ≤ e.total) ∧
    (∀ e ∈ X.sessionTrace results members, e.transferred + e.invited ≤ e.total) := by
  intro results members
  have hxx := xx_loopAux_inv results members.length members 0 Xx.initState
    (Nat.le_refl 0) (by simp) (by simp [Xx.initState])
  have hx := x_loopAux_inv results members.length members 0 X.initState
    (Nat.le_refl 0) (by simp) (by simp [X.initState])
  constructor
  · intro e he
    simp only [Xx.sessionTrace] at he
    rcases List.mem_cons.mp he with h | h
    · subst h; simp
    · rcases List.mem_append.mp h with h | h
      · rcases List.mem_map.mp h with ⟨p, hp, hpe⟩
        subst hpe
        simpa using (hxx.2 p hp).1
      · have he' : e = ⟨(Xx.runLoop results members).success, 0, members.length⟩ := by
          simpa using h
        subst he'
        simpa using hxx.1
  · intro e he
    simp only [X.sessionTrace] at he
    rcases List.mem_cons.mp he with h | h
    · subst h; simp
    · rcases List.mem_append.mp h with h | h
      · rcases List.mem_map.mp h with ⟨p, hp, hpe⟩
        subst hpe
        simpa using hx.2 p hp
      · have he' : e = ⟨(X.runLoop results members).success, 0, members.length⟩ := by
          simpa using h
        subst he'
        simpa using hx.1

/-- Witness for C3 at the creation entry of a one-member run. -/
theorem c3_witness :
    (⟨0, 0, 1⟩ : LedgerEntry).transferred + (⟨0, 0, 1⟩ : LedgerEntry).invited
      ≤ (⟨0, 0, 1⟩ : LedgerEntry).total :=
  (c3_ledger_invariant alwaysOk [5]).1 ⟨0, 0, 1⟩ (by decide)

/-- C4 counterexample: a privacy-restriction failure of the direct add
makes the member `FAILED` in both variants, never `INVITED` — neither
script implements the invite-link fallback the claim describes, so even
with an invite link available the transition demanded by the claim does
not occur. -/
theorem c4_counterexample :
    Xx.memberTransition AddResult.privacyRestricted = MemberState.failed ∧
    ¬ Xx.memberTransition AddResult.privacyRestricted = MemberState.invited ∧
    X.memberTransition AddResult.privacyRestricted = MemberState.failed ∧
    ¬ X.memberTransition AddResult.privacyRestricted = MemberState.invited := by decide

/-- C4 amended: no member ever transitions to `INVITED` in either variant;
every direct-add failure other than a flood-wait (privacy restriction
included, with or without an invite link) transitions the member to
`FAILED`, and no member is retried within the run (each member is
attempted exactly once). -/
theorem c4_amended_all_failures_failed : ∀ (r : AddResult),
    Xx.memberTransition r ≠ MemberState.invited ∧
    X.memberTransition r ≠ MemberState.invited ∧
    (r ≠ AddResult.ok → (∀ w, r ≠ AddResult.floodWait w) →
      Xx.memberTransition r = MemberState.failed ∧
      X.memberTransition r = MemberState.failed) ∧
    (∀ (results : Nat → AddResult) (members : List Nat),
      (Xx.runLoop results members).attempted = members) := by
  intro r
  refine ⟨?_, ?_, ?_, ?_⟩
  · cases r <;> simp [Xx.memberTransition]
  · cases r <;> simp [X.memberTransition]
  · intro hok hfl
    cases r with
    | ok => exact absurd rfl hok
    | floodWait w => exact absurd rfl (hfl w)
    | privacyRestricted => exact ⟨rfl, rfl⟩
    | otherError => exact ⟨rfl, rfl⟩
  · intro results members
    rw [Xx.runLoop, xx_loopAux_attempted]
    simp [Xx.initState]

/-- Witness for C4 at a generic non-flood error. -/
theorem c4_witness :
    Xx.memberTransition AddResult.otherError = MemberState.failed ∧
    X.memberTransition AddResult.otherError = MemberState.failed :=
  (c4_amended_all_failures_failed AddResult.otherError).2.2.1
    (by decide) (fun w h => AddResult.noConfusion h)

/-- C5 counterexample: in the bot variant a run over two members whose adds
both succeed writes the ledger already at attempt 1, which is neither a
5th attempt nor the final attempt of the loop — the `UPDATE` of
`transfer_operations` sits outside the every-5th condition, which only
gates the status-message edit. -/
theorem c5_counterexample :
    ¬ (∀ p ∈ (X.runLoop alwaysOk [1, 2]).ledger, p.1 % 5 = 0 ∨ p.1 = 2) := by decide

/-- C5 amended: the bot variant writes its progress counter to the ledger
once per successful attempt (the number of in-loop ledger writes equals
the success count); the batch variant writes only at attempts whose
1-based index is a multiple of 5 or equals the total member count (and
only when that attempt succeeds); both variants additionally write the
final counters once at loop completion. -/
theorem c5_amended_ledger_write_points : ∀ (results : Nat → AddResult) (members : List Nat),
    (X.runLoop results members).ledger.length = (X.runLoop results members).success ∧
    (∀ p ∈ (Xx.runLoop results members).ledger, p.1 % 5 = 0 ∨ p.1 = members.length) ∧
    (⟨(Xx.runLoop results members).success, 0, members.length⟩ : LedgerEntry)
      ∈ Xx.sessionTrace results members ∧
    (⟨(X.runLoop results members).success, 0, members.length⟩ : LedgerEntry)
      ∈ X.sessionTrace results members := by
  intro results members
  refine ⟨?_, ?_, ?_, ?_⟩
  · have h := X.loopAux_ledger_length results members 0 X.initState
    simpa [X.runLoop, X.initState] using h
  · intro p hp
    have hxx := xx_loopAux_inv results members.length members 0 Xx.initState
      (Nat.le_refl 0) (by simp) (by simp [Xx.initState])
    exact (hxx.2 p hp).2
  · simp [Xx.sessionTrace]
  · simp [X.sessionTrace]

/-- Witness for C5 at a one-member run whose single attempt succeeds: its
sole in-loop write is at the final attempt. -/
theorem c5_witness : (1 : Nat) % 5 = 0 ∨ (1 : Nat) = 1 :=
  (c5_amended_ledger_write_points alwaysOk [9]).2.1 (1, 1) (by decide)

end MemberTool
